import Mathlib

/-!
Verification development for the stance finite-state machine of the
3d-com-lmpc walking controller (`mpc3d/fsm.py`).

The Python source is shallowly embedded below.  Machine reals are modelled
by rationals (ℚ).  Fallible operations (assertion failures, out-of-range
list indexing, attribute access on an absent object) return `Option`,
with `none` standing for the raised Python exception.  External
collaborators (pymanoid's quaternion slerp, rotation matrices, the CWC
polytope computation, locks and threads) are kept abstract: they enter as
explicit function parameters or as opaque presence markers, exactly at the
interface the source uses them.
-/

namespace Mpc3d

/-- Point models a 3-vector of coordinates (numpy array of length 3). -/
abbrev Point := ℚ × ℚ × ℚ

/-- Quat models a quaternion as 4 scalar components. -/
abbrev Quat := ℚ × ℚ × ℚ × ℚ

/-- padd models componentwise numpy addition of two 3-vectors. -/
def padd (p q : Point) : Point :=
  (p.1 + q.1, p.2.1 + q.2.1, p.2.2 + q.2.2)

/-- psub models componentwise numpy subtraction of two 3-vectors. -/
def psub (p q : Point) : Point :=
  (p.1 - q.1, p.2.1 - q.2.1, p.2.2 - q.2.2)

/-- psmul models numpy scalar multiplication of a 3-vector. -/
def psmul (c : ℚ) (p : Point) : Point :=
  (c * p.1, c * p.2.1, c * p.2.2)

/-- dotQ models numpy dot(p, p)-style inner product of a 3-vector with
itself, as used by the assertion in `Stance.get_cwc_pyparma`. -/
def dotQ (p : Point) : ℚ :=
  p.1 * p.1 + p.2.1 * p.2.1 + p.2.2 * p.2.2

/-- Pose models the 7-component pose vector of the source: a quaternion
(`pose[:4]`) followed by a position (`pose[4:]`). -/
structure Pose where
  quat : Quat
  pos : Point
deriving DecidableEq

/-- pose_interp embeds the module-level function `pose_interp(pose0, pose1, t)`:
linear interpolation of the positions and slerp of the quaternions.
`slerp` is pymanoid's external `quat_slerp`, passed as a parameter. -/
def pose_interp (slerp : Quat → Quat → ℚ → Quat) (pose0 pose1 : Pose) (t : ℚ) : Pose :=
  { quat := slerp pose0.quat pose1.quat t
    pos := padd pose0.pos (psmul t (psub pose1.pos pose0.pos)) }

/-- FreeLimb embeds the swing-foot trajectory generator class `FreeLimb`:
its current pose (the pymanoid Contact pose set by `set_pose`) and the
`start_pose`/`mid_pose`/`end_pose` fields, which are `None` until `reset`
is called. -/
structure FreeLimb where
  pose : Pose
  start_pose : Option Pose
  mid_pose : Option Pose
  end_pose : Option Pose
deriving DecidableEq

/-- reset embeds `FreeLimb.reset(start_pose, end_pose)`: the mid pose is the
interpolation of start and end at 1/2, raised by 0.2 length units along the
local surface normal.  `quatNormal` is the external computation
`rotation_matrix_from_quat(q)[0:3, 2]` (third rotation-matrix column). -/
def FreeLimb.reset (slerp : Quat → Quat → ℚ → Quat) (quatNormal : Quat → Point)
    (fl : FreeLimb) (start_pose end_pose : Pose) : FreeLimb :=
  let mid0 := pose_interp slerp start_pose end_pose (1 / 2)
  let mid : Pose := { quat := mid0.quat
                      pos := padd mid0.pos (psmul (1 / 5) (quatNormal mid0.quat)) }
  { fl with
    pose := start_pose
    start_pose := some start_pose
    mid_pose := some mid
    end_pose := some end_pose }

/-- update_pose embeds `FreeLimb.update_pose(x)`: a no-op for `x >= 1`,
otherwise interpolation start→mid at parameter `2x` when `x <= 0.5` and
mid→end at parameter `2x - 1` when `0.5 < x < 1`.  Accessing a pose field
still equal to `None` (generator not yet reset) raises in Python and is
`none` here. -/
def FreeLimb.update_pose (slerp : Quat → Quat → ℚ → Quat) (fl : FreeLimb)
    (x : ℚ) : Option FreeLimb :=
  if 1 ≤ x then
    some fl
  else if x ≤ 1 / 2 then
    match fl.start_pose, fl.mid_pose with
    | some pose0, some pose1 =>
        let y := 2 * x
        some { fl with pose := { quat := slerp pose0.quat pose1.quat y
                                 pos := padd (psmul (1 - y) pose0.pos) (psmul y pose1.pos) } }
    | _, _ => none
  else
    match fl.mid_pose, fl.end_pose with
    | some pose0, some pose1 =>
        let y := 2 * x - 1
        some { fl with pose := { quat := slerp pose0.quat pose1.quat y
                                 pos := padd (psmul (1 - y) pose0.pos) (psmul y pose1.pos) } }
    | _, _ => none

/-- GState is the closed enumeration of the four discrete FSM states
written 'DS-L', 'SS-L', 'DS-R', 'SS-R' in the source. -/
inductive GState where
  | DSL
  | SSL
  | DSR
  | SSR
deriving DecidableEq

/-- transitions embeds the class-level dictionary `StanceFSM.transitions`. -/
def transitions : GState → GState
  | .DSL => .SSL
  | .SSL => .DSR
  | .DSR => .SSR
  | .SSR => .DSL

/-- suffixL models the Python test `state[-1] == 'L'`. -/
def suffixL : GState → Bool
  | .DSL => true
  | .SSL => true
  | .DSR => false
  | .SSR => false

/-- isDS models the Python test `state.startswith('DS')`. -/
def isDS : GState → Bool
  | .DSL => true
  | .DSR => true
  | .SSL => false
  | .SSR => false

/-- Contact models an element of the contact sequence; only its position
`p` is read by the embedded core. -/
structure Contact where
  p : Point
deriving DecidableEq

/-- Stance embeds the `Stance` class fields set by `Stance.__init__`:
state, optional left/right foot contacts and the derived CoM reference
(supporting foot position plus a vertical leg-length offset). -/
structure Stance where
  state : GState
  left_foot : Option Contact
  right_foot : Option Contact
  com : Point
deriving DecidableEq

/-- mkStance embeds `Stance.__init__(state, left_foot, right_foot)` with
leg length `l`: the supporting foot is chosen by the state suffix
(`left_foot if state[-1] == 'L' else right_foot`); reading `foot.p` when
that foot is `None` raises in Python, hence `none` here. -/
def mkStance (l : ℚ) (st : GState) (lf rf : Option Contact) : Option Stance :=
  match (if suffixL st then lf else rf) with
  | none => none
  | some foot =>
      some { state := st
             left_foot := lf
             right_foot := rf
             com := padd foot.p (0, 0, l) }

/-- is_double_support embeds the property `Stance.is_double_support`. -/
def Stance.is_double_support (s : Stance) : Bool :=
  isDS s.state

/-- is_single_support embeds the property `Stance.is_single_support`. -/
def Stance.is_single_support (s : Stance) : Bool :=
  !(isDS s.state)

/-- StanceCwc isolates the lazily cached wrench-cone field
`Stance.cwc_pyparma` (initially `None`); the descriptor type is abstract. -/
structure StanceCwc (A : Type) where
  cwc_pyparma : Option A

/-- get_cwc_pyparma embeds `Stance.get_cwc_pyparma(p)`: assert
`dot(p, p) < 1e-6` (failure is `none`), compute the external
`compute_cwc_pyparma` only when the cache is empty, and return the cached
value together with the updated cache state. -/
def get_cwc_pyparma {A : Type} (compute_cwc_pyparma : Point → A)
    (s : StanceCwc A) (p : Point) : Option (A × StanceCwc A) :=
  if dotQ p < 1 / 1000000 then
    match s.cwc_pyparma with
    | some v => some (v, s)
    | none =>
        let v := compute_cwc_pyparma p
        some (v, { cwc_pyparma := some v })
  else
    none

/-- StanceFSM embeds the mutable fields of the `StanceFSM` class.  The
external CoM point-mass is represented by its position `com_pos` (set once
at construction); `thread_lock` is `some ()` when a lock object is
installed by `start_thread` and `none` when it is `None`. -/
structure StanceFSM where
  com_pos : Point
  contacts : List Contact
  cur_stance : Stance
  cyclic : Bool
  ds_duration : ℚ
  leg_length : ℚ
  nb_contacts : ℕ
  next_contact_id : ℕ
  rem_time : ℚ
  ss_duration : ℚ
  state : GState
  state_time : ℚ
  thread_lock : Option Unit
deriving DecidableEq

/-- mkStanceFSM embeds `StanceFSM.__init__`: assert the initial state is
DS-L or DS-R, build the first stance from `contacts[0]` and `contacts[1]`
(an out-of-range access raises, hence `none`), optionally shift its CoM by
`init_com_offset`, write the CoM position, and initialise the bookkeeping
fields, with `next_contact_id = 2 if init_state == 'DS-R' else 3`. -/
def mkStanceFSM (l : ℚ) (contacts : List Contact) (init_state : GState)
    (ss_duration ds_duration : ℚ) (init_com_offset : Option Point)
    (cyclic : Bool) : Option StanceFSM :=
  if init_state = .DSL ∨ init_state = .DSR then
    (contacts[0]?).bind (fun c0 =>
      (contacts[1]?).bind (fun c1 =>
        (mkStance l init_state (some c0) (some c1)).map (fun st0 =>
          let st :=
            match init_com_offset with
            | some off => { st0 with com := padd st0.com off }
            | none => st0
          { com_pos := st.com
            contacts := contacts
            cur_stance := st
            cyclic := cyclic
            ds_duration := ds_duration
            leg_length := l
            nb_contacts := contacts.length
            next_contact_id := if init_state = .DSR then 2 else 3
            rem_time := 0
            ss_duration := ss_duration
            state := init_state
            state_time := 0
            thread_lock := none })))
  else
    none

/-- start_thread models the lock installation of `StanceFSM.start_thread`
(`self.thread_lock = Lock()`); the spawned worker itself is external. -/
def StanceFSM.start_thread (f : StanceFSM) : StanceFSM :=
  { f with thread_lock := some () }

/-- pause_thread embeds `StanceFSM.pause_thread`
(`self.thread_lock.acquire()`): attribute access on `None` raises, hence
`none`; acquiring an installed lock succeeds. -/
def StanceFSM.pause_thread (f : StanceFSM) : Option Unit :=
  f.thread_lock.map (fun _ => ())

/-- resume_thread embeds `StanceFSM.resume_thread`
(`self.thread_lock.release()`), with the same `None`-access failure. -/
def StanceFSM.resume_thread (f : StanceFSM) : Option Unit :=
  f.thread_lock.map (fun _ => ())

/-- stop_thread embeds `StanceFSM.stop_thread`
(`self.thread_lock = None`). -/
def StanceFSM.stop_thread (f : StanceFSM) : StanceFSM :=
  { f with thread_lock := none }

/-- next_contact embeds the property `StanceFSM.next_contact`
(`self.contacts[self.next_contact_id]`); an out-of-range index raises in
Python, hence `none`. -/
def StanceFSM.next_contact (f : StanceFSM) : Option Contact :=
  f.contacts[f.next_contact_id]?

/-- next_state embeds the property `StanceFSM.next_state`
(`self.transitions[self.state]`). -/
def StanceFSM.next_state (f : StanceFSM) : GState :=
  transitions f.state

/-- next_stance embeds the property `StanceFSM.next_stance`: case split on
the next state, keeping the supporting foot of the current stance and,
when entering double support, fetching `next_contact` for the landing
foot. -/
def StanceFSM.next_stance (f : StanceFSM) : Option Stance :=
  match transitions f.state with
  | .SSL => mkStance f.leg_length .SSL f.cur_stance.left_foot none
  | .DSR =>
      match f.next_contact with
      | none => none
      | some c => mkStance f.leg_length .DSR f.cur_stance.left_foot (some c)
  | .SSR => mkStance f.leg_length .SSR none f.cur_stance.right_foot
  | .DSL =>
      match f.next_contact with
      | none => none
      | some c => mkStance f.leg_length .DSL (some c) f.cur_stance.right_foot

/-- next_ss_stance embeds the property `StanceFSM.next_ss_stance`: assert
single support (failure is `none`), then compose the transition table
twice and build the stance holding only `next_contact` on the side of the
currently absent foot. -/
def StanceFSM.next_ss_stance (f : StanceFSM) : Option Stance :=
  if f.cur_stance.is_single_support then
    match f.next_contact with
    | none => none
    | some c =>
        if f.cur_stance.left_foot.isNone then
          mkStance f.leg_length (transitions (transitions f.state)) (some c) none
        else
          mkStance f.leg_length (transitions (transitions f.state)) none (some c)
  else
    none

/-- advanceContact embeds the contact-index bookkeeping block of
`StanceFSM.step` run when the next state is a double-support state:
increment `next_contact_id`; on reaching the sequence length either wrap
(cyclic) or, when the stepping thread is running, stop it. -/
def StanceFSM.advanceContact (f : StanceFSM) : StanceFSM :=
  let f1 := { f with next_contact_id := f.next_contact_id + 1 }
  if f1.nb_contacts ≤ f1.next_contact_id then
    if f1.cyclic then
      { f1 with next_contact_id := f1.next_contact_id - f1.nb_contacts }
    else if f1.thread_lock.isSome then
      f1.stop_thread
    else
      f1
  else
    f1

/-- step embeds `StanceFSM.step`: compute the next stance (this is where a
raised exception propagates, hence the `Option`), run the contact-index
bookkeeping when moving into double support, and replace `cur_stance` and
`state`. -/
def StanceFSM.step (f : StanceFSM) : Option StanceFSM :=
  (f.next_stance).map (fun ns =>
    { (if isDS (transitions f.state) then f.advanceContact else f) with
      cur_stance := ns
      state := transitions f.state })

/-- stepN iterates `step` through the `Option` monad: `stepN f n` is the
automaton after `n` successive `step()` calls, or `none` if one raised. -/
def stepN (f : StanceFSM) : ℕ → Option StanceFSM
  | 0 => some f
  | n + 1 => (stepN f n).bind StanceFSM.step

/-- get_preview_targets embeds `StanceFSM.get_preview_targets`; the first
branch reads `next_ss_stance`, whose assertion cannot fire there but whose
contact access can raise, hence the `Option`. -/
def StanceFSM.get_preview_targets (f : StanceFSM) : Option (ℚ × Point) :=
  let time_to_transition := f.rem_time
  if f.cur_stance.is_single_support = true ∧
      time_to_transition < 1 / 2 * f.ss_duration then
    match f.next_ss_stance with
    | none => none
    | some s =>
        some (time_to_transition + f.ds_duration + 1 / 2 * f.ss_duration, s.com)
  else if f.cur_stance.is_double_support = true then
    some (time_to_transition + 1 / 2 * f.ss_duration, f.cur_stance.com)
  else
    some (time_to_transition, f.cur_stance.com)

/-- stateSeq is the discrete state sequence of an automaton run
indefinitely from DS-L: `stateSeq n` is the state after `n` transitions. -/
def stateSeq : ℕ → GState
  | 0 => .DSL
  | n + 1 => transitions (stateSeq n)

/-- footInvB states the stance foot invariant: both feet present in double
support; in single support exactly the foot named by the state suffix is
present (SS-L keeps the left foot, SS-R the right). -/
def footInvB (s : Stance) : Bool :=
  match s.state with
  | .DSL => s.left_foot.isSome && s.right_foot.isSome
  | .DSR => s.left_foot.isSome && s.right_foot.isSome
  | .SSL => s.left_foot.isSome && s.right_foot.isNone
  | .SSR => s.left_foot.isNone && s.right_foot.isSome

/-- wellFormed collects the automaton invariants: the `state` field
mirrors `cur_stance.state`, the stance foot invariant holds, and
`nb_contacts` is the length of the contact sequence. -/
def wellFormed (f : StanceFSM) : Prop :=
  f.cur_stance.state = f.state ∧ footInvB f.cur_stance = true ∧
    f.nb_contacts = f.contacts.length

/-- exContact is a concrete contact at position (i, 0, 0). -/
def exContact (i : ℕ) : Contact :=
  ⟨((i : ℚ), 0, 0)⟩

/-- exContacts is a concrete 4-contact sequence. -/
def exContacts : List Contact :=
  [exContact 0, exContact 1, exContact 2, exContact 3]

/-- exFr is a non-cyclic automaton on the 4-contact sequence, started in
DS-R with its stepping thread running. -/
def exFr : Option StanceFSM :=
  (mkStanceFSM 1 exContacts .DSR 1 (1 / 2) none false).map StanceFSM.start_thread

/-- exFc is a cyclic automaton on the 4-contact sequence started in DS-R. -/
def exFc : Option StanceFSM :=
  mkStanceFSM 1 exContacts .DSR 1 (1 / 2) none true

/-- exFSMp is a concrete automaton configuration in double support with
0.2 s of the phase remaining and a 1 s single-support duration, as in the
preview-target test case of the specification. -/
def exFSMp : StanceFSM :=
  { com_pos := (1, 0, 1)
    contacts := exContacts
    cur_stance := { state := .DSR
                    left_foot := some (exContact 0)
                    right_foot := some (exContact 1)
                    com := (1, 0, 1) }
    cyclic := false
    ds_duration := 1 / 2
    leg_length := 1
    nb_contacts := 4
    next_contact_id := 2
    rem_time := 1 / 5
    ss_duration := 1
    state := .DSR
    state_time := 0
    thread_lock := none }

/-- exFc3 is the cyclic example automaton after 3 steps. -/
def exFc3 : StanceFSM :=
  (exFc.bind (fun f => stepN f 3)).getD exFSMp

/-- exFc4 is the cyclic example automaton after 4 steps. -/
def exFc4 : StanceFSM :=
  (exFc.bind (fun f => stepN f 4)).getD exFSMp

/-- exFr1 is the non-cyclic example automaton after 1 step. -/
def exFr1 : StanceFSM :=
  (exFr.bind (fun f => stepN f 1)).getD exFSMp

/-- exFr2 is the non-cyclic example automaton after 2 steps. -/
def exFr2 : StanceFSM :=
  (exFr.bind (fun f => stepN f 2)).getD exFSMp

/-- exFr3 is the non-cyclic example automaton after 3 steps. -/
def exFr3 : StanceFSM :=
  (exFr.bind (fun f => stepN f 3)).getD exFSMp

/-- exFr4 is the non-cyclic example automaton after 4 steps. -/
def exFr4 : StanceFSM :=
  (exFr.bind (fun f => stepN f 4)).getD exFSMp

/-- exFp4 is the preview example automaton after 4 steps. -/
def exFp4 : StanceFSM :=
  (stepN exFSMp 4).getD exFSMp

/-- exFSMs is a concrete automaton configuration in single support (SS-R)
with 0.2 s of the phase remaining, past the midpoint of its 1 s
single-support duration. -/
def exFSMs : StanceFSM :=
  { exFSMp with
    cur_stance := { state := .SSR
                    left_foot := none
                    right_foot := some (exContact 1)
                    com := (1, 0, 1) }
    state := .SSR }

/-- exFSMs2 is exFSMs with 0.9 s of the phase remaining (early in the
swing, before the midpoint). -/
def exFSMs2 : StanceFSM :=
  { exFSMs with rem_time := 9 / 10 }

/-- exNextSS is the look-two-ahead stance of exFSMs. -/
def exNextSS : Stance :=
  (exFSMs.next_ss_stance).getD exFSMp.cur_stance

/-- exF0 is the automaton freshly constructed in DS-R on the concrete
4-contact sequence. -/
def exF0 : StanceFSM :=
  (mkStanceFSM 1 exContacts .DSR 1 (1 / 2) none false).getD exFSMp

/-- exFp1 is the preview example automaton after one step. -/
def exFp1 : StanceFSM :=
  (stepN exFSMp 1).getD exFSMp

/-- exSlerp is a concrete stand-in for the external quaternion slerp; it
satisfies the boundary identity slerp a b 1 = b. -/
def exSlerp : Quat → Quat → ℚ → Quat :=
  fun _ b _ => b

/-- exQuatNormal is a concrete stand-in for the external surface-normal
extraction. -/
def exQuatNormal : Quat → Point :=
  fun _ => (0, 0, 1)

/-- exPoseA is a concrete start pose. -/
def exPoseA : Pose :=
  { quat := (1, 0, 0, 0), pos := (0, 0, 0) }

/-- exPoseB is a concrete mid pose. -/
def exPoseB : Pose :=
  { quat := (1, 0, 0, 0), pos := (1, 1, 0) }

/-- exPoseC is a concrete end pose. -/
def exPoseC : Pose :=
  { quat := (1, 0, 0, 0), pos := (2, 0, 0) }

/-- exFL is a concrete swing generator with all three poses set. -/
def exFL : FreeLimb :=
  { pose := exPoseA
    start_pose := some exPoseA
    mid_pose := some exPoseB
    end_pose := some exPoseC }

theorem mkStance_elim {l : ℚ} {st : GState} {lf rf : Option Contact} {s : Stance}
    (h : mkStance l st lf rf = some s) :
    s.state = st ∧ s.left_foot = lf ∧ s.right_foot = rf ∧
      (if suffixL st then lf else rf).isSome = true := by
  unfold mkStance at h
  cases hf : (if suffixL st then lf else rf) with
  | none => rw [hf] at h; cases h
  | some foot =>
      rw [hf] at h
      cases h
      exact ⟨rfl, rfl, rfl, rfl⟩

theorem step_elim {f f' : StanceFSM} (h : f.step = some f') :
    ∃ ns, f.next_stance = some ns ∧
      f' = { (if isDS (transitions f.state) then f.advanceContact else f) with
             cur_stance := ns
             state := transitions f.state } := by
  unfold StanceFSM.step at h
  rcases Option.map_eq_some'.mp h with ⟨ns, hns, hf'⟩
  exact ⟨ns, hns, hf'.symm⟩

theorem advanceContact_fields (f : StanceFSM) :
    (f.advanceContact).cur_stance = f.cur_stance ∧
      (f.advanceContact).state = f.state ∧
      (f.advanceContact).contacts = f.contacts ∧
      (f.advanceContact).nb_contacts = f.nb_contacts ∧
      (f.advanceContact).cyclic = f.cyclic := by
  unfold StanceFSM.advanceContact StanceFSM.stop_thread
  dsimp only
  split
  · split
    · exact ⟨rfl, rfl, rfl, rfl, rfl⟩
    · split
      · exact ⟨rfl, rfl, rfl, rfl, rfl⟩
      · exact ⟨rfl, rfl, rfl, rfl, rfl⟩
  · exact ⟨rfl, rfl, rfl, rfl, rfl⟩

theorem step_state {f f' : StanceFSM} (h : f.step = some f') :
    f'.state = transitions f.state := by
  rcases step_elim h with ⟨ns, hns, rfl⟩
  rfl

theorem transitions_four (s : GState) :
    transitions (transitions (transitions (transitions s))) = s := by
  cases s <;> rfl

/-- C1: the transition table is the fixed 4-cycle DS-L → SS-L → DS-R →
SS-R → DS-L; any four successive `step()` calls that complete return the
discrete state to its starting value; and the state sequence run
indefinitely from DS-L is periodic with period 4. -/
theorem C1_four_cycle :
    (transitions .DSL = .SSL ∧ transitions .SSL = .DSR ∧
      transitions .DSR = .SSR ∧ transitions .SSR = .DSL) ∧
    (∀ f f' : StanceFSM, f.step = some f' → f'.state = transitions f.state) ∧
    (∀ f f' : StanceFSM, stepN f 4 = some f' → f'.state = f.state) ∧
    (∀ n : ℕ, stateSeq (n + 4) = stateSeq n) := by
  refine ⟨⟨rfl, rfl, rfl, rfl⟩, fun f f' h => step_state h, ?_, ?_⟩
  · intro f f' h
    have h4 : (stepN f 3).bind StanceFSM.step = some f' := h
    rcases Option.bind_eq_some.mp h4 with ⟨f3, h3, hs4⟩
    rcases Option.bind_eq_some.mp h3 with ⟨f2, h2, hs3⟩
    rcases Option.bind_eq_some.mp h2 with ⟨f1, h1, hs2⟩
    rcases Option.bind_eq_some.mp h1 with ⟨f0, h0, hs1⟩
    have h0' : some f = some f0 := h0
    injection h0' with e0
    subst e0
    rw [step_state hs4, step_state hs3, step_state hs2, step_state hs1]
    exact transitions_four f.state
  · intro n
    induction n with
    | zero => rfl
    | succ m ih =>
        have : stateSeq (m + 1 + 4) = transitions (stateSeq (m + 4)) := rfl
        rw [this, ih]
        rfl

/-- C1 witness: four steps of the concrete cyclic automaton complete and
return the discrete state to DS-R. -/
theorem C1_four_cycle_witness :
    (exFSMp.step = some exFp1 ∧ exFp1.state = transitions exFSMp.state) ∧
    (stepN exFSMp 4 = some exFp4 ∧ exFp4.state = exFSMp.state) :=
  ⟨⟨by rfl, C1_four_cycle.2.1 exFSMp exFp1 (by rfl)⟩,
    ⟨by rfl, C1_four_cycle.2.2.1 exFSMp exFp4 (by rfl)⟩⟩

theorem double_not_single {s : Stance} (h : s.is_double_support = true) :
    s.is_single_support = false := by
  unfold Stance.is_double_support at h
  unfold Stance.is_single_support
  rw [h]
  rfl

/-- C2: `get_preview_targets()` returns, for every automaton state, the
horizon and CoM target of the branch selected by the current stance and
remaining time: in late single support (remaining time below half the
single-support duration) the horizon is remaining + ds_duration + half
ss_duration with the look-two-ahead stance's CoM; in double support it is
remaining + half ss_duration with the current CoM; otherwise it is the
remaining time with the current CoM; at the concrete double-support
configuration with 0.2 s remaining and ss_duration 1 s the horizon is
0.7 s. -/
theorem C2_preview_targets :
    (∀ (f : StanceFSM) (s : Stance), f.cur_stance.is_single_support = true →
        f.rem_time < 1 / 2 * f.ss_duration → f.next_ss_stance = some s →
        f.get_preview_targets =
          some (f.rem_time + f.ds_duration + 1 / 2 * f.ss_duration, s.com)) ∧
    (∀ f : StanceFSM, f.cur_stance.is_double_support = true →
        f.get_preview_targets =
          some (f.rem_time + 1 / 2 * f.ss_duration, f.cur_stance.com)) ∧
    (∀ f : StanceFSM, f.cur_stance.is_single_support = true →
        ¬ f.rem_time < 1 / 2 * f.ss_duration →
        f.get_preview_targets = some (f.rem_time, f.cur_stance.com)) ∧
    exFSMp.get_preview_targets = some (7 / 10, exFSMp.cur_stance.com) := by
  have hds : ∀ f : StanceFSM, f.cur_stance.is_double_support = true →
      f.get_preview_targets =
        some (f.rem_time + 1 / 2 * f.ss_duration, f.cur_stance.com) := by
    intro f h
    have hns : ¬ (f.cur_stance.is_single_support = true ∧
        f.rem_time < 1 / 2 * f.ss_duration) := by
      intro hc
      rw [double_not_single h] at hc
      exact Bool.false_ne_true hc.1
    simp only [StanceFSM.get_preview_targets]
    rw [if_neg hns, if_pos h]
  refine ⟨?_, hds, ?_, ?_⟩
  · intro f s h1 h2 hs
    simp only [StanceFSM.get_preview_targets]
    rw [if_pos ⟨h1, h2⟩, hs]
  · intro f h1 h2
    have hns : ¬ (f.cur_stance.is_single_support = true ∧
        f.rem_time < 1 / 2 * f.ss_duration) := fun hc => h2 hc.2
    have hnd : ¬ f.cur_stance.is_double_support = true := by
      unfold Stance.is_double_support
      unfold Stance.is_single_support at h1
      intro hd
      rw [hd] at h1
      exact Bool.false_ne_true h1
    simp only [StanceFSM.get_preview_targets]
    rw [if_neg hns, if_neg hnd]
  · have h := hds exFSMp (by rfl)
    rw [h]
    norm_num [exFSMp]

/-- C2 witness: the three branches evaluated at concrete configurations in
late single support, double support and early single support. -/
theorem C2_preview_targets_witness :
    (exFSMs.cur_stance.is_single_support = true ∧
      exFSMs.rem_time < 1 / 2 * exFSMs.ss_duration ∧
      exFSMs.next_ss_stance = some exNextSS ∧
      exFSMs.get_preview_targets =
        some (exFSMs.rem_time + exFSMs.ds_duration + 1 / 2 * exFSMs.ss_duration,
          exNextSS.com)) ∧
    (exFSMp.cur_stance.is_double_support = true ∧
      exFSMp.get_preview_targets =
        some (exFSMp.rem_time + 1 / 2 * exFSMp.ss_duration, exFSMp.cur_stance.com)) ∧
    (exFSMs2.cur_stance.is_single_support = true ∧
      1 / 2 * exFSMs2.ss_duration ≤ exFSMs2.rem_time ∧
      exFSMs2.get_preview_targets = some (exFSMs2.rem_time, exFSMs2.cur_stance.com)) :=
  ⟨⟨by rfl, by norm_num [exFSMs, exFSMp], by rfl,
      C2_preview_targets.1 exFSMs exNextSS (by rfl)
        (by norm_num [exFSMs, exFSMp]) (by rfl)⟩,
    ⟨by rfl, C2_preview_targets.2.1 exFSMp (by rfl)⟩,
    ⟨by rfl, by norm_num [exFSMs2, exFSMs, exFSMp],
      C2_preview_targets.2.2.1 exFSMs2 (by rfl)
        (not_lt.mpr (by norm_num [exFSMs2, exFSMs, exFSMp]))⟩⟩

theorem mkStance_isSome (l : ℚ) (st : GState) (lf rf : Option Contact) :
    (mkStance l st lf rf).isSome = (if suffixL st then lf else rf).isSome := by
  unfold mkStance
  cases hf : (if suffixL st then lf else rf) <;> rfl

theorem bandElim {a b : Bool} (h : (a && b) = true) : a = true ∧ b = true := by
  cases a <;> cases b <;> simp_all

theorem footInvB_DSL {s : Stance} (h : s.state = .DSL) :
    footInvB s = (s.left_foot.isSome && s.right_foot.isSome) := by
  unfold footInvB
  rw [h]

theorem footInvB_DSR {s : Stance} (h : s.state = .DSR) :
    footInvB s = (s.left_foot.isSome && s.right_foot.isSome) := by
  unfold footInvB
  rw [h]

theorem footInvB_SSL {s : Stance} (h : s.state = .SSL) :
    footInvB s = (s.left_foot.isSome && s.right_foot.isNone) := by
  unfold footInvB
  rw [h]

theorem footInvB_SSR {s : Stance} (h : s.state = .SSR) :
    footInvB s = (s.left_foot.isNone && s.right_foot.isSome) := by
  unfold footInvB
  rw [h]

theorem mkStanceFSM_wellFormed {l : ℚ} {cs : List Contact} {st : GState}
    {ss ds : ℚ} {off : Option Point} {cyc : Bool} {f : StanceFSM}
    (h : mkStanceFSM l cs st ss ds off cyc = some f) : wellFormed f := by
  unfold mkStanceFSM at h
  by_cases hst : st = .DSL ∨ st = .DSR
  · rw [if_pos hst] at h
    rcases Option.bind_eq_some.mp h with ⟨c0, h0, h⟩
    rcases Option.bind_eq_some.mp h with ⟨c1, h1, h⟩
    rcases Option.map_eq_some'.mp h with ⟨st0, hmk, hf⟩
    obtain ⟨hs, hl, hr, _⟩ := mkStance_elim hmk
    cases off with
    | none =>
        subst hf
        have hfi : footInvB st0 = true := by
          rcases hst with hst | hst
          · rw [footInvB_DSL (hs.trans hst), hl, hr]
            rfl
          · rw [footInvB_DSR (hs.trans hst), hl, hr]
            rfl
        exact ⟨hs, hfi, rfl⟩
    | some o =>
        subst hf
        have hs2 : ({ st0 with com := padd st0.com o } : Stance).state = st := hs
        have hfi : footInvB { st0 with com := padd st0.com o } = true := by
          rcases hst with hst | hst
          · rw [footInvB_DSL (hs2.trans hst)]
            show (st0.left_foot.isSome && st0.right_foot.isSome) = true
            rw [hl, hr]
            rfl
          · rw [footInvB_DSR (hs2.trans hst)]
            show (st0.left_foot.isSome && st0.right_foot.isSome) = true
            rw [hl, hr]
            rfl
        exact ⟨hs2, hfi, rfl⟩
  · rw [if_neg hst] at h
    cases h

theorem step_preserves_wellFormed {f f' : StanceFSM} (hwf : wellFormed f)
    (h : f.step = some f') : wellFormed f' := by
  obtain ⟨hmir, hfoot, hnb⟩ := hwf
  rcases step_elim h with ⟨ns, hns, rfl⟩
  have hb1 : (if isDS (transitions f.state) then f.advanceContact else f).nb_contacts =
      f.nb_contacts := by
    split
    · exact (advanceContact_fields f).2.2.2.1
    · rfl
  have hb2 : (if isDS (transitions f.state) then f.advanceContact else f).contacts =
      f.contacts := by
    split
    · exact (advanceContact_fields f).2.2.1
    · rfl
  have hmain : ns.state = transitions f.state ∧ footInvB ns = true := by
    unfold StanceFSM.next_stance at hns
    cases hstate : f.state
    case DSL =>
      rw [hstate] at hns
      simp only [transitions] at hns ⊢
      obtain ⟨hs, hl, hr, hsup⟩ := mkStance_elim hns
      have hsup' : (f.cur_stance.left_foot).isSome = true := hsup
      refine ⟨hs, ?_⟩
      rw [footInvB_SSL hs, hl, hr, hsup']
      rfl
    case SSL =>
      rw [hstate] at hns
      simp only [transitions] at hns ⊢
      cases hc : f.next_contact with
      | none => rw [hc] at hns; cases hns
      | some c =>
          rw [hc] at hns
          obtain ⟨hs, hl, hr, _⟩ := mkStance_elim hns
          have hcs : f.cur_stance.state = GState.SSL := hmir.trans hstate
          have hcur := bandElim ((footInvB_SSL hcs) ▸ hfoot)
          refine ⟨hs, ?_⟩
          rw [footInvB_DSR hs, hl, hr, hcur.1]
          rfl
    case DSR =>
      rw [hstate] at hns
      simp only [transitions] at hns ⊢
      obtain ⟨hs, hl, hr, hsup⟩ := mkStance_elim hns
      have hsup' : (f.cur_stance.right_foot).isSome = true := hsup
      refine ⟨hs, ?_⟩
      rw [footInvB_SSR hs, hl, hr, hsup']
      rfl
    case SSR =>
      rw [hstate] at hns
      simp only [transitions] at hns ⊢
      cases hc : f.next_contact with
      | none => rw [hc] at hns; cases hns
      | some c =>
          rw [hc] at hns
          obtain ⟨hs, hl, hr, _⟩ := mkStance_elim hns
          have hcs : f.cur_stance.state = GState.SSR := hmir.trans hstate
          have hcur := bandElim ((footInvB_SSR hcs) ▸ hfoot)
          refine ⟨hs, ?_⟩
          rw [footInvB_DSL hs, hl, hr, hcur.2]
          rfl
  exact ⟨hmain.1, hmain.2, hb1.trans (hnb.trans (congrArg List.length hb2.symm))⟩

theorem next_stance_isSome {f : StanceFSM} (hwf : wellFormed f)
    (hlt : f.next_contact_id < f.nb_contacts) :
    (f.next_stance).isSome = true := by
  obtain ⟨hmir, hfoot, hnb⟩ := hwf
  have hlen : f.next_contact_id < f.contacts.length := hnb ▸ hlt
  have hcontact : f.next_contact = some (f.contacts[f.next_contact_id]) := by
    unfold StanceFSM.next_contact
    exact List.getElem?_eq_getElem hlen
  unfold StanceFSM.next_stance
  cases hstate : f.state
  case DSL =>
    simp only [transitions]
    have hcs : f.cur_stance.state = GState.DSL := hmir.trans hstate
    have hcur := bandElim ((footInvB_DSL hcs) ▸ hfoot)
    rw [mkStance_isSome]
    exact hcur.1
  case SSL =>
    simp only [transitions]
    rw [hcontact]
    rw [mkStance_isSome]
    rfl
  case DSR =>
    simp only [transitions]
    have hcs : f.cur_stance.state = GState.DSR := hmir.trans hstate
    have hcur := bandElim ((footInvB_DSR hcs) ▸ hfoot)
    rw [mkStance_isSome]
    exact hcur.2
  case SSR =>
    simp only [transitions]
    rw [hcontact]
    rw [mkStance_isSome]
    rfl

/-- C4: in every stance reachable by construction or by a completed
`step()`, both feet are present in double support and, in single support,
exactly the foot named by the state suffix is present (SS-L keeps the left
foot and drops the right, SS-R the converse); the proof carries the
auxiliary invariants (state mirror, contact count) needed for
preservation. -/
theorem C4_stance_invariant :
    (∀ (l : ℚ) (cs : List Contact) (st : GState) (ss ds : ℚ)
        (off : Option Point) (cyc : Bool) (f : StanceFSM),
        mkStanceFSM l cs st ss ds off cyc = some f →
        footInvB f.cur_stance = true ∧ wellFormed f) ∧
    (∀ f f' : StanceFSM, wellFormed f → f.step = some f' →
        footInvB f'.cur_stance = true ∧ wellFormed f') := by
  constructor
  · intro l cs st ss ds off cyc f h
    have hwf := mkStanceFSM_wellFormed h
    exact ⟨hwf.2.1, hwf⟩
  · intro f f' hwf h
    have hwf' := step_preserves_wellFormed hwf h
    exact ⟨hwf'.2.1, hwf'⟩

/-- C4 witness: the invariant at a concrete construction and across a
concrete step. -/
theorem C4_stance_invariant_witness :
    (mkStanceFSM 1 exContacts .DSR 1 (1 / 2) none false = some exF0 ∧
      footInvB exF0.cur_stance = true ∧ wellFormed exF0) ∧
    (wellFormed exFSMp ∧ exFSMp.step = some exFp1 ∧
      footInvB exFp1.cur_stance = true ∧ wellFormed exFp1) :=
  ⟨⟨by rfl, C4_stance_invariant.1 1 exContacts .DSR 1 (1 / 2) none false exF0 (by rfl)⟩,
    ⟨⟨rfl, rfl, rfl⟩, by rfl,
      C4_stance_invariant.2 exFSMp exFp1 ⟨rfl, rfl, rfl⟩ (by rfl)⟩⟩

/-- C6: amended — `step()` completes on every well-formed configuration
whose `next_contact_id` still lies inside the contact sequence; after a
non-cyclic sequence is fully consumed the next transition into double
support raises an out-of-range contact access instead (see the
counterexample). -/
theorem C6_step_totality (f : StanceFSM) :
    wellFormed f → f.next_contact_id < f.nb_contacts → (f.step).isSome = true := by
  intro hwf hlt
  have h := next_stance_isSome hwf hlt
  unfold StanceFSM.step
  cases hns : f.next_stance with
  | none => rw [hns] at h; cases h
  | some ns => rfl

/-- C6 counterexample: on the non-cyclic 4-contact automaton started at
DS-R, the first five `step()` calls complete (ending in single support
with the sequence consumed), and the sixth raises on the out-of-range
contact index — so `step()` does not always succeed once the sequence is
exhausted. -/
theorem C6_counterexample :
    (exFr.bind (fun f => stepN f 5)).isSome = true ∧
      exFr.bind (fun f => stepN f 6) = none :=
  ⟨by rfl, by rfl⟩

/-- C6 witness: totality of a concrete step before exhaustion. -/
theorem C6_step_totality_witness :
    wellFormed exFSMp ∧ exFSMp.next_contact_id < exFSMp.nb_contacts ∧
      (exFSMp.step).isSome = true :=
  ⟨⟨rfl, rfl, rfl⟩, by decide,
    C6_step_totality exFSMp ⟨rfl, rfl, rfl⟩ (by decide)⟩

theorem next_contact_isSome_of_step_DS {f : StanceFSM} {ns : Stance}
    (hns : f.next_stance = some ns) (hds : isDS (transitions f.state) = true) :
    (f.next_contact).isSome = true := by
  unfold StanceFSM.next_stance at hns
  cases htr : transitions f.state <;> rw [htr] at hns hds
  case DSL =>
    cases hc : f.next_contact with
    | none => rw [hc] at hns; cases hns
    | some c => rfl
  case SSL => exact absurd hds Bool.false_ne_true
  case DSR =>
    cases hc : f.next_contact with
    | none => rw [hc] at hns; cases hns
    | some c => rfl
  case SSR => exact absurd hds Bool.false_ne_true

theorem step_DS_lt {f : StanceFSM} {ns : Stance}
    (hns : f.next_stance = some ns) (hds : isDS (transitions f.state) = true)
    (hnb : f.nb_contacts = f.contacts.length) :
    f.next_contact_id < f.nb_contacts := by
  have hc := next_contact_isSome_of_step_DS hns hds
  unfold StanceFSM.next_contact at hc
  rw [hnb]
  by_contra hge
  rw [List.getElem?_eq_none (Nat.le_of_not_lt hge)] at hc
  cases hc

theorem advanceContact_id_cyclic {f : StanceFSM} (hcyc : f.cyclic = true)
    (hlt : f.next_contact_id < f.nb_contacts) :
    (f.advanceContact).next_contact_id = (f.next_contact_id + 1) % f.nb_contacts := by
  unfold StanceFSM.advanceContact
  dsimp only
  by_cases hge : f.nb_contacts ≤ f.next_contact_id + 1
  · rw [if_pos hge, if_pos hcyc]
    have h1 : f.next_contact_id + 1 = f.nb_contacts :=
      Nat.le_antisymm hlt hge
    show f.next_contact_id + 1 - f.nb_contacts = (f.next_contact_id + 1) % f.nb_contacts
    rw [h1, Nat.sub_self, Nat.mod_self]
  · rw [if_neg hge]
    show f.next_contact_id + 1 = (f.next_contact_id + 1) % f.nb_contacts
    rw [Nat.mod_eq_of_lt (Nat.lt_of_not_le hge)]

theorem advanceContact_stop {f : StanceFSM} (hcyc : f.cyclic = false)
    (hlock : f.thread_lock.isSome = true)
    (hge : f.nb_contacts ≤ f.next_contact_id + 1) :
    (f.advanceContact).thread_lock = none := by
  unfold StanceFSM.advanceContact
  dsimp only
  rw [if_pos hge, if_neg (by rw [hcyc]; exact Bool.false_ne_true), if_pos hlock]
  rfl

/-- C3: when a completed `step()` enters a double-support state it
advances `next_contact_id` by one; on a cyclic automaton the index wraps
modulo the sequence length, and on a non-cyclic automaton with the thread
running reaching the sequence length clears the thread lock (signals
termination); on the concrete non-cyclic 4-contact automaton started at
DS-R the signal fires exactly at the step entering the second additional
double-support phase and never before or after. -/
theorem C3_contact_advance :
    (∀ f f' : StanceFSM, f.step = some f' → isDS (transitions f.state) = true →
        f.next_contact_id + 1 < f.nb_contacts →
        f'.next_contact_id = f.next_contact_id + 1) ∧
    (∀ f f' : StanceFSM, f.step = some f' → isDS (transitions f.state) = false →
        f'.next_contact_id = f.next_contact_id) ∧
    (∀ f f' : StanceFSM, f.cyclic = true → f.nb_contacts = f.contacts.length →
        f.step = some f' → isDS (transitions f.state) = true →
        f'.next_contact_id = (f.next_contact_id + 1) % f.nb_contacts) ∧
    (∀ f f' : StanceFSM, f.cyclic = false → f.thread_lock.isSome = true →
        f.step = some f' → isDS (transitions f.state) = true →
        f.nb_contacts ≤ f.next_contact_id + 1 → f'.thread_lock = none) ∧
    ((exFr.bind (fun f => stepN f 1)).map (fun f => f.thread_lock.isSome) = some true ∧
      (exFr.bind (fun f => stepN f 2)).map (fun f => f.thread_lock.isSome) = some true ∧
      (exFr.bind (fun f => stepN f 3)).map (fun f => f.thread_lock.isSome) = some true ∧
      (exFr.bind (fun f => stepN f 4)).map (fun f => f.thread_lock.isSome) = some false ∧
      (exFr.bind (fun f => stepN f 5)).map (fun f => f.thread_lock.isSome) = some false ∧
      (exFr.bind (fun f => stepN f 1)).map StanceFSM.state = some .SSR ∧
      (exFr.bind (fun f => stepN f 2)).map StanceFSM.state = some .DSL ∧
      (exFr.bind (fun f => stepN f 3)).map StanceFSM.state = some .SSL ∧
      (exFr.bind (fun f => stepN f 4)).map StanceFSM.state = some .DSR) := by
  refine ⟨?_, ?_, ?_, ?_, by rfl, by rfl, by rfl, by rfl, by rfl, by rfl, by rfl, by rfl, by rfl⟩
  · intro f f' hstep hds hlt
    rcases step_elim hstep with ⟨ns, hns, rfl⟩
    show (if isDS (transitions f.state) then f.advanceContact else f).next_contact_id =
      f.next_contact_id + 1
    rw [if_pos hds]
    unfold StanceFSM.advanceContact
    dsimp only
    rw [if_neg (Nat.not_le_of_lt hlt)]
  · intro f f' hstep hds
    rcases step_elim hstep with ⟨ns, hns, rfl⟩
    show (if isDS (transitions f.state) then f.advanceContact else f).next_contact_id =
      f.next_contact_id
    rw [if_neg (by rw [hds]; exact Bool.false_ne_true)]
  · intro f f' hcyc hnb hstep hds
    rcases step_elim hstep with ⟨ns, hns, rfl⟩
    have hlt := step_DS_lt hns hds hnb
    show (if isDS (transitions f.state) then f.advanceContact else f).next_contact_id =
      (f.next_contact_id + 1) % f.nb_contacts
    rw [if_pos hds]
    exact advanceContact_id_cyclic hcyc hlt
  · intro f f' hcyc hlock hstep hds hge
    rcases step_elim hstep with ⟨ns, hns, rfl⟩
    show (if isDS (transitions f.state) then f.advanceContact else f).thread_lock = none
    rw [if_pos hds]
    exact advanceContact_stop hcyc hlock hge

/-- C3 witness: the cyclic wrap at a concrete step entering double
support, and the termination signal at a concrete non-cyclic step. -/
theorem C3_contact_advance_witness :
    (exFr1.step = some exFr2 ∧ isDS (transitions exFr1.state) = true ∧
      exFr1.next_contact_id + 1 < exFr1.nb_contacts ∧
      exFr2.next_contact_id = exFr1.next_contact_id + 1) ∧
    (exFSMp.step = some exFp1 ∧ isDS (transitions exFSMp.state) = false ∧
      exFp1.next_contact_id = exFSMp.next_contact_id) ∧
    (exFc3.cyclic = true ∧ exFc3.nb_contacts = exFc3.contacts.length ∧
      exFc3.step = some exFc4 ∧ isDS (transitions exFc3.state) = true ∧
      exFc4.next_contact_id = (exFc3.next_contact_id + 1) % exFc3.nb_contacts) ∧
    (exFr3.cyclic = false ∧ exFr3.thread_lock.isSome = true ∧
      exFr3.step = some exFr4 ∧ isDS (transitions exFr3.state) = true ∧
      exFr3.nb_contacts ≤ exFr3.next_contact_id + 1 ∧
      exFr4.thread_lock = none) :=
  ⟨⟨by rfl, by rfl, by decide,
      C3_contact_advance.1 exFr1 exFr2 (by rfl) (by rfl) (by decide)⟩,
    ⟨by rfl, by rfl,
      C3_contact_advance.2.1 exFSMp exFp1 (by rfl) (by rfl)⟩,
    ⟨by rfl, by rfl, by rfl, by rfl,
      C3_contact_advance.2.2.1 exFc3 exFc4 (by rfl) (by rfl) (by rfl) (by rfl)⟩,
    ⟨by rfl, by rfl, by rfl, by rfl, by decide,
      C3_contact_advance.2.2.2.1 exFr3 exFr4 (by rfl) (by rfl) (by rfl) (by rfl) (by decide)⟩⟩

/-- C10: `stop_thread` — run explicitly or from a completed `step()` that
exhausts a non-cyclic sequence with the thread running — clears the lock
reference, and every later `pause_thread` or `resume_thread` call raises
on the absent lock (modelled by `none`) instead of being a no-op. -/
theorem C10_stop_thread_disables_pause :
    (∀ f : StanceFSM, (f.stop_thread).thread_lock = none) ∧
    (∀ f f' : StanceFSM, f.cyclic = false → f.thread_lock.isSome = true →
        f.step = some f' → isDS (transitions f.state) = true →
        f.nb_contacts ≤ f.next_contact_id + 1 → f'.thread_lock = none) ∧
    (∀ f : StanceFSM, f.thread_lock = none →
        f.pause_thread = none ∧ f.resume_thread = none) := by
  refine ⟨fun f => rfl, ?_, ?_⟩
  · intro f f' hcyc hlock hstep hds hge
    rcases step_elim hstep with ⟨ns, hns, rfl⟩
    show (if isDS (transitions f.state) then f.advanceContact else f).thread_lock = none
    rw [if_pos hds]
    exact advanceContact_stop hcyc hlock hge
  · intro f h
    constructor
    · unfold StanceFSM.pause_thread
      rw [h]
      rfl
    · unfold StanceFSM.resume_thread
      rw [h]
      rfl

/-- C10 witness: after the concrete automatic stop (non-cyclic sequence
exhausted at step 4) the lock is absent and pause/resume raise. -/
theorem C10_stop_thread_disables_pause_witness :
    (exFr3.cyclic = false ∧ exFr3.thread_lock.isSome = true ∧
      exFr3.step = some exFr4 ∧ isDS (transitions exFr3.state) = true ∧
      exFr3.nb_contacts ≤ exFr3.next_contact_id + 1 ∧
      exFr4.thread_lock = none) ∧
    (exFr4.thread_lock = none ∧
      exFr4.pause_thread = none ∧ exFr4.resume_thread = none) :=
  ⟨⟨by rfl, by rfl, by rfl, by rfl, by decide,
      C10_stop_thread_disables_pause.2.1 exFr3 exFr4 (by rfl) (by rfl) (by rfl)
        (by rfl) (by decide)⟩,
    ⟨by rfl,
      C10_stop_thread_disables_pause.2.2 exFr4 (by rfl)⟩⟩

/-- C7: amended — the wrench-cone descriptor is memoized (the first
successful call computes and caches it, and every later admissible call
returns the cached value with no recomputation: the result is independent
of the compute function), but the only rejection is the near-origin
assertion `dot(p, p) < 1e-6` applied to every call; a later call at a
different admissible reference point is answered silently from the cache,
not rejected (see the counterexample). -/
theorem C7_cwc_memoization {A : Type} (compute g : Point → A)
    (s : StanceCwc A) (p q : Point) (v : A) :
    (s.cwc_pyparma = none → dotQ p < 1 / 1000000 →
      get_cwc_pyparma compute s p =
        some (compute p, { cwc_pyparma := some (compute p) })) ∧
    (s.cwc_pyparma = some v → dotQ q < 1 / 1000000 →
      get_cwc_pyparma g s q = some (v, s)) ∧
    (¬ dotQ p < 1 / 1000000 → get_cwc_pyparma compute s p = none) := by
  refine ⟨?_, ?_, ?_⟩
  · intro hc hp
    unfold get_cwc_pyparma
    rw [if_pos hp, hc]
  · intro hc hq
    unfold get_cwc_pyparma
    rw [if_pos hq, hc]
  · intro hp
    unfold get_cwc_pyparma
    rw [if_neg hp]

/-- C7 counterexample: after a first call at the origin, a second call at
the different admissible reference point (1/2000, 0, 0) is not rejected —
it succeeds and silently returns the value cached for the first point. -/
theorem C7_counterexample :
    get_cwc_pyparma (fun _ => (42 : ℕ)) { cwc_pyparma := none } ((0 : ℚ), 0, 0) =
      some (42, { cwc_pyparma := some 42 }) ∧
    ((((1 : ℚ) / 2000, (0 : ℚ), (0 : ℚ)) : Point) ==
        (((0 : ℚ), (0 : ℚ), (0 : ℚ)) : Point)) = false ∧
    get_cwc_pyparma (fun _ => (7 : ℕ)) { cwc_pyparma := some 42 }
        ((1 : ℚ) / 2000, 0, 0) =
      some (42, { cwc_pyparma := some 42 }) := by
  refine ⟨?_, ?_, ?_⟩
  · unfold get_cwc_pyparma
    rw [if_pos (by norm_num [dotQ])]
  · rw [beq_eq_false_iff_ne]
    intro h
    rw [Prod.ext_iff] at h
    have h1 : (1 : ℚ) / 2000 = 0 := h.1
    norm_num at h1
  · unfold get_cwc_pyparma
    rw [if_pos (by norm_num [dotQ])]

/-- C7 witness: a later call at an admissible point returns the cache
regardless of the compute function, and a far reference point is
rejected. -/
theorem C7_cwc_memoization_witness :
    (({ cwc_pyparma := some 42 } : StanceCwc ℕ).cwc_pyparma = some 42 ∧
      dotQ ((0 : ℚ), 0, 0) < 1 / 1000000 ∧
      get_cwc_pyparma (fun _ => (7 : ℕ)) { cwc_pyparma := some 42 } ((0 : ℚ), 0, 0) =
        some (42, { cwc_pyparma := some 42 })) ∧
    ((1 : ℚ) / 1000000 ≤ dotQ ((1 : ℚ), 0, 0) ∧
      get_cwc_pyparma (fun _ => (7 : ℕ)) ({ cwc_pyparma := some 42 } : StanceCwc ℕ)
        ((1 : ℚ), 0, 0) = none) :=
  ⟨⟨rfl, by norm_num [dotQ],
      (C7_cwc_memoization (fun _ => (7 : ℕ)) (fun _ => (7 : ℕ))
        { cwc_pyparma := some 42 } ((1 : ℚ), 0, 0) ((0 : ℚ), 0, 0) 42).2.1
        rfl (by norm_num [dotQ])⟩,
    ⟨by norm_num [dotQ],
      (C7_cwc_memoization (fun _ => (7 : ℕ)) (fun _ => (7 : ℕ))
        { cwc_pyparma := some 42 } ((1 : ℚ), 0, 0) ((0 : ℚ), 0, 0) 42).2.2
        (not_lt.mpr (by norm_num [dotQ]))⟩⟩

/-- C9: amended — immediately after construction `next_contact_id` is 2
when the initial state is DS-R but 3 when it is DS-L (the source sets
`2 if init_state == 'DS-R' else 3`), so the first contact placed by
stepping is `contacts[2]` from DS-R and `contacts[3]` from DS-L. -/
theorem C9_next_contact_index {l : ℚ} {cs : List Contact} {st : GState}
    {ss ds : ℚ} {off : Option Point} {cyc : Bool} {f : StanceFSM}
    (h : mkStanceFSM l cs st ss ds off cyc = some f) :
    f.next_contact_id = (if st = .DSR then 2 else 3) ∧
    (st = .DSR → f.next_contact_id = 2) ∧
    (st = .DSL → f.next_contact_id = 3) := by
  unfold mkStanceFSM at h
  by_cases hst : st = .DSL ∨ st = .DSR
  · rw [if_pos hst] at h
    rcases Option.bind_eq_some.mp h with ⟨c0, h0, h⟩
    rcases Option.bind_eq_some.mp h with ⟨c1, h1, h⟩
    rcases Option.map_eq_some'.mp h with ⟨st0, hmk, hf⟩
    subst hf
    refine ⟨rfl, ?_, ?_⟩
    · intro h2
      show (if st = GState.DSR then 2 else 3) = 2
      rw [if_pos h2]
    · intro h3
      show (if st = GState.DSR then 2 else 3) = 3
      rw [if_neg (by rw [h3]; intro hcontra; cases hcontra)]
  · rw [if_neg hst] at h
    cases h

/-- C9 counterexample: constructed in DS-L the automaton's
`next_contact_id` is 3, not 2 as the claim states for both admissible
initial states. -/
theorem C9_counterexample :
    ((mkStanceFSM 1 exContacts .DSL 1 (1 / 2) none false).map
        (fun f => f.next_contact_id) == some 2) = false ∧
    (mkStanceFSM 1 exContacts .DSL 1 (1 / 2) none false).map
        (fun f => f.next_contact_id) = some 3 := by
  have he : (mkStanceFSM 1 exContacts .DSL 1 (1 / 2) none false).map
      (fun f => f.next_contact_id) = some 3 := by rfl
  refine ⟨?_, he⟩
  rw [he]
  decide

/-- C9 witness: the amended index at a concrete DS-R construction. -/
theorem C9_next_contact_index_witness :
    mkStanceFSM 1 exContacts .DSR 1 (1 / 2) none false = some exF0 ∧
      exF0.next_contact_id = 2 :=
  have h : mkStanceFSM 1 exContacts .DSR 1 (1 / 2) none false = some exF0 := by rfl
  ⟨h, (C9_next_contact_index h).2.1 rfl⟩

theorem lerp_pos_eq (p0 p1 : Point) (y : ℚ) :
    padd (psmul (1 - y) p0) (psmul y p1) = padd p0 (psmul y (psub p1 p0)) := by
  unfold padd psmul psub
  simp only [Prod.mk.injEq]
  refine ⟨by ring, by ring, by ring⟩

theorem pose_interp_one (slerp : Quat → Quat → ℚ → Quat)
    (hsl1 : ∀ a b : Quat, slerp a b 1 = b) (p0 p1 : Pose) :
    pose_interp slerp p0 p1 1 = p1 := by
  obtain ⟨q1, a, b, c⟩ := p1
  unfold pose_interp padd psmul psub
  rw [hsl1]
  simp only [Pose.mk.injEq, Prod.mk.injEq]
  refine ⟨by trivial, by ring, by ring, by ring⟩

/-- C5: `update_pose(progress)` interpolates start→mid at local parameter
2·progress when progress ≤ 1/2, mid→end at 2·progress − 1 when
1/2 < progress < 1, and is a no-op when progress ≥ 1; on a freshly reset
generator `update_pose(1/2)` yields exactly the stored mid pose (the
external slerp is only assumed to satisfy slerp a b 1 = b). -/
theorem C5_update_pose (slerp : Quat → Quat → ℚ → Quat)
    (quatNormal : Quat → Point) (fl : FreeLimb) (sp mp ep : Pose) (x : ℚ)
    (hsl1 : ∀ a b : Quat, slerp a b 1 = b) :
    (fl.start_pose = some sp → fl.mid_pose = some mp → x ≤ 1 / 2 →
      fl.update_pose slerp x =
        some { fl with pose := pose_interp slerp sp mp (2 * x) }) ∧
    (fl.mid_pose = some mp → fl.end_pose = some ep → 1 / 2 < x → x < 1 →
      fl.update_pose slerp x =
        some { fl with pose := pose_interp slerp mp ep (2 * x - 1) }) ∧
    (1 ≤ x → fl.update_pose slerp x = some fl) ∧
    (∀ g : FreeLimb,
      ((g.reset slerp quatNormal sp ep).update_pose slerp (1 / 2)).map FreeLimb.pose =
        (g.reset slerp quatNormal sp ep).mid_pose) := by
  have hb1 : ∀ (fl2 : FreeLimb) (sp2 mp2 : Pose) (x2 : ℚ),
      fl2.start_pose = some sp2 → fl2.mid_pose = some mp2 → x2 ≤ 1 / 2 →
      fl2.update_pose slerp x2 =
        some { fl2 with pose := pose_interp slerp sp2 mp2 (2 * x2) } := by
    intro fl2 sp2 mp2 x2 hs hm hx
    have hx1 : ¬ (1 : ℚ) ≤ x2 := by linarith
    unfold FreeLimb.update_pose pose_interp
    rw [if_neg hx1, if_pos hx, hs, hm]
    dsimp only
    rw [lerp_pos_eq]
  refine ⟨fun hs hm hx => hb1 fl sp mp x hs hm hx, ?_, ?_, ?_⟩
  · intro hm he hx1 hx2
    have hne1 : ¬ (1 : ℚ) ≤ x := by linarith
    have hne2 : ¬ x ≤ 1 / 2 := by linarith
    unfold FreeLimb.update_pose pose_interp
    rw [if_neg hne1, if_neg hne2, hm, he]
    dsimp only
    rw [lerp_pos_eq]
  · intro hx
    unfold FreeLimb.update_pose
    rw [if_pos hx]
  · intro g
    rw [hb1 (g.reset slerp quatNormal sp ep) sp _ (1 / 2) (by rfl) (by rfl)
      (by norm_num)]
    have h2 : (2 : ℚ) * (1 / 2) = 1 := by norm_num
    rw [Option.map_some', h2, pose_interp_one slerp hsl1]
    rfl

/-- C5 witness: the first-segment branch, the no-op branch and the exact
midpoint property on a concrete generator and poses. -/
theorem C5_update_pose_witness :
    (exFL.start_pose = some exPoseA ∧ exFL.mid_pose = some exPoseB ∧
      ((1 : ℚ) / 4) ≤ 1 / 2 ∧
      exFL.update_pose exSlerp (1 / 4) =
        some { exFL with pose := pose_interp exSlerp exPoseA exPoseB (2 * (1 / 4)) }) ∧
    ((1 : ℚ) ≤ 2 ∧ exFL.update_pose exSlerp 2 = some exFL) ∧
    ((exFL.reset exSlerp exQuatNormal exPoseA exPoseC).update_pose exSlerp
        (1 / 2)).map FreeLimb.pose =
      (exFL.reset exSlerp exQuatNormal exPoseA exPoseC).mid_pose :=
  ⟨⟨rfl, rfl, by norm_num,
      (C5_update_pose exSlerp exQuatNormal exFL exPoseA exPoseB exPoseC (1 / 4)
        (fun a b => rfl)).1 rfl rfl (by norm_num)⟩,
    ⟨by norm_num,
      (C5_update_pose exSlerp exQuatNormal exFL exPoseA exPoseB exPoseC 2
        (fun a b => rfl)).2.2.1 (by norm_num)⟩,
    (C5_update_pose exSlerp exQuatNormal exFL exPoseA exPoseB exPoseC 2
      (fun a b => rfl)).2.2.2 exFL⟩

end Mpc3d
